import Mathlib

/-!
Verification of the contingency-analysis reporting core of GridCal
(`GridCalEngine/Simulations/ContingencyAnalysis/contingencies_report.py`).

The Python source is shallowly embedded below:

* machine floats are modelled as exact rationals (`ℚ`);
* NumPy arrays indexed by branch or bus are modelled as total functions
  `ℕ → ℚ` (the caller contract guarantees in-range indices);
* the CSC sparse block `MLODF[:, βδ]` is modelled by its three component
  arrays `data`, `indices`, `indptr`;
* the in-place NumPy semantics of `get_ptdf_comp_numba` are modelled by
  explicit state passing: `result = PTDF[m, :]` creates a *view* of row `m`,
  so the accumulation `result += data[i] * PTDF[bd_index, :]` writes through
  to the `PTDF` matrix itself.  The embedding therefore returns the final
  matrix state, from which both the returned row and the post-call contents
  of `PTDF` can be read off;
* the external remedial-action search `BusesForSrap.is_solvable` (defined in
  a different module of the repository) is abstracted as an oracle field of
  the input record: the claims below concern only when it is invoked and how
  its result is propagated.
-/

/-- Epsilon added to rating denominators in the source (`1e-9`). -/
def eps : ℚ := 1 / 1000000000

/-- Sentinel value `-99999.999` used by the dead error branch of `analyze`. -/
def errSentinel : ℚ := -99999999 / 1000

/-- Python `enumerate` over a list: pairs each element with its index. -/
def pyEnumerate {α : Type} (l : List α) : List (ℕ × α) :=
  List.zip (List.range l.length) l

/-- One execution of the guarded statement
`if indices[i] == m: result += data[i] * PTDF[bd_index, :]` from
`get_ptdf_comp_numba`.  Because `result` is a view of `PTDF[m, :]`, the
update mutates row `m` of the matrix state `P`. -/
def ptdfStep (data : ℕ → ℚ) (indices : ℕ → ℕ) (m : ℕ)
    (P : ℕ → ℕ → ℚ) (bd_index : ℕ) (i : ℕ) : ℕ → ℕ → ℚ :=
  if indices i = m then
    fun r c => if r = m then P m c + data i * P bd_index c else P r c
  else P

/-- Matrix state after `get_ptdf_comp_numba(data, indices, indptr, PTDF, m,
bd_indices)` returns: the double loop
`for j, bd_index in enumerate(bd_indices): for i in range(indptr[j],
indptr[j+1]): ...` executed on the initial state `PTDF`. -/
def get_ptdf_comp_numba_state (data : ℕ → ℚ) (indices : ℕ → ℕ)
    (indptr : ℕ → ℕ) (PTDF : ℕ → ℕ → ℚ) (m : ℕ) (bd_indices : List ℕ) :
    ℕ → ℕ → ℚ :=
  (pyEnumerate bd_indices).foldl
    (fun P jbd =>
      (List.range' (indptr jbd.1) (indptr (jbd.1 + 1) - indptr jbd.1)).foldl
        (fun P' i => ptdfStep data indices m P' jbd.2 i) P)
    PTDF

/-- Value returned by `get_ptdf_comp` (and by `get_ptdf_comp_numba`): the
final contents of the row view `result = PTDF[m, :]`. -/
def get_ptdf_comp (mon_br_idx : ℕ) (branch_indices : List ℕ)
    (data : ℕ → ℚ) (indices : ℕ → ℕ) (indptr : ℕ → ℕ)
    (PTDF : ℕ → ℕ → ℚ) : ℕ → ℚ :=
  get_ptdf_comp_numba_state data indices indptr PTDF mon_br_idx branch_indices
    mon_br_idx

/-- Dense entry `MLODF[m, j]` of the sparse CSC column block: the sum of the
stored values of column `j` whose row index is `m`. -/
def mlodfEntry (data : ℕ → ℚ) (indices : ℕ → ℕ) (indptr : ℕ → ℕ)
    (m j : ℕ) : ℚ :=
  (((List.range' (indptr j) (indptr (j + 1) - indptr j)).filter
      (fun i => indices i = m)).map data).sum

/-- Modelled from the spec: the dense reference value of the compensated
sensitivity row, `row(m) = PTDF[m,:] + Σ_k MLODF[m,k] · PTDF[k,:]`, the sum
running over the outaged branches `k` in their given order (`k` being the
`j`-th outaged branch, `MLODF[m,k]` is the entry of the `j`-th sparse
column at row `m`). -/
def denseReferenceRow (data : ℕ → ℚ) (indices : ℕ → ℕ) (indptr : ℕ → ℕ)
    (PTDF : ℕ → ℕ → ℚ) (m : ℕ) (bd_indices : List ℕ) : ℕ → ℚ :=
  fun c => PTDF m c +
    ((pyEnumerate bd_indices).map
      (fun jbd => mlodfEntry data indices indptr m jbd.1 * PTDF jbd.2 c)).sum

/-- Outer loop of `get_ptdf_comp_numba` over an arbitrary list of
(column position, outaged branch) pairs, starting from matrix state `P`. -/
def ptdfOuter (data : ℕ → ℚ) (indices : ℕ → ℕ) (indptr : ℕ → ℕ) (m : ℕ)
    (ps : List (ℕ × ℕ)) (P : ℕ → ℕ → ℚ) : ℕ → ℕ → ℚ :=
  ps.foldl
    (fun Q jbd =>
      (List.range' (indptr jbd.1) (indptr (jbd.1 + 1) - indptr jbd.1)).foldl
        (fun Q' i => ptdfStep data indices m Q' jbd.2 i) Q)
    P

/-- Row of the contingency report table (`ContingencyTableEntry.__init__`).
Flow fields are stored as the (real-embedded) values passed by `analyze`. -/
structure ContingencyTableEntry where
  time_index : ℤ
  area_from : String
  area_to : String
  base_name : String
  contingency_name : String
  base_rating : ℚ
  contingency_rating : ℚ
  srap_rating : ℚ
  base_flow : ℚ
  post_contingency_flow : ℚ
  post_srap_flow : ℚ
  base_loading : ℚ
  post_contingency_loading : ℚ
  post_srap_loading : ℚ
  msg_ov : String
  msg_srap : String
  srap_power : ℚ
  solved_by_srap : Bool
deriving DecidableEq, Repr

/-- Report table holding an ordered list of entries
(`ContingencyResultsReport`). -/
structure ContingencyResultsReport where
  entries : List ContingencyTableEntry
deriving DecidableEq, Repr

/-- Method `add_entry`: appends one entry at the end of the report. -/
def ContingencyResultsReport.add_entry (r : ContingencyResultsReport)
    (e : ContingencyTableEntry) : ContingencyResultsReport :=
  ⟨r.entries ++ [e]⟩

/-- Method `merge`: `self.entries += other.entries` (list concatenation). -/
def ContingencyResultsReport.merge (r other : ContingencyResultsReport) :
    ContingencyResultsReport :=
  ⟨r.entries ++ other.entries⟩

/-- Method `__iadd__`: appends the other report entry by entry via
`add_entry`. -/
def ContingencyResultsReport.iadd (r other : ContingencyResultsReport) :
    ContingencyResultsReport :=
  other.entries.foldl ContingencyResultsReport.add_entry r

/-- Method `size`: number of entries. -/
def ContingencyResultsReport.size (r : ContingencyResultsReport) : ℕ :=
  r.entries.length

/-- Inputs of `ContingencyResultsReport.analyze`.  Per-branch arrays are
functions from the branch index; `numerical_circuit.rates` and
`numerical_circuit.branch_data.rates` expose the same underlying array,
likewise the contingency rates.  The remedial-action search
`BusesForSrap.is_solvable` lives in another module and is abstracted by the
oracle `srap_is_solvable`, giving for each monitored branch the pair
`(solved_by_srap, max_srap_power)` that the call would return. -/
structure AnalyzeInputs where
  t : Option ℤ
  mon_idx : List ℕ
  rates : ℕ → ℚ
  contingency_rates : ℕ → ℚ
  branch_names : ℕ → String
  base_flow : ℕ → ℚ
  base_loading : ℕ → ℚ
  contingency_flows : ℕ → ℚ
  contingency_loadings : ℕ → ℚ
  contingency_idx : ℕ
  contingency_group_name : String
  using_srap : Bool
  srap_ratings : ℕ → ℚ
  srap_deadband : ℚ
  contingency_deadband : ℚ
  F : ℕ → ℕ
  T : ℕ → ℕ
  bus_area_indices : ℕ → ℕ
  area_names : ℕ → String
  detailed_massive_report : Bool
  srap_is_solvable : ℕ → Bool × ℚ

/-- Local `rate_nx_pu = numerical_circuit.contingency_rates[m] /
(numerical_circuit.rates[m] + 1e-9)` of `analyze`. -/
def rate_nx_pu (inp : AnalyzeInputs) (m : ℕ) : ℚ :=
  inp.contingency_rates m / (inp.rates m + eps)

/-- Local `rate_srap_pu = srap_ratings[m] / (numerical_circuit.rates[m] +
1e-9)` of `analyze`. -/
def rate_srap_pu (inp : AnalyzeInputs) (m : ℕ) : ℚ :=
  inp.srap_ratings m / (inp.rates m + eps)

/-- Local `c_flow = abs(contingency_flows[m])` of `analyze`. -/
def cFlow (inp : AnalyzeInputs) (m : ℕ) : ℚ := |inp.contingency_flows m|

/-- Local `b_flow = abs(base_flow[m])` of `analyze`. -/
def bFlow (inp : AnalyzeInputs) (m : ℕ) : ℚ := |inp.base_flow m|

/-- Local `c_load = abs(contingency_loadings[m])` of `analyze`. -/
def cLoad (inp : AnalyzeInputs) (m : ℕ) : ℚ := |inp.contingency_loadings m|

/-- Gate of the contingency loop of `analyze`:
`affected_by_cont1 and affected_by_cont2 and c_load > 1 and
c_flow > b_flow`. -/
def gating (inp : AnalyzeInputs) (m : ℕ) : Prop :=
  inp.contingency_flows m ≠ inp.base_flow m ∧
  cFlow inp m / (bFlow inp m + eps) - 1 > inp.contingency_deadband ∧
  cLoad inp m > 1 ∧
  cFlow inp m > bFlow inp m

instance (inp : AnalyzeInputs) (m : ℕ) : Decidable (gating inp m) := by
  unfold gating
  exact inferInstance

/-- Result of the `if/elif` classification chain of `analyze`: the grade
`ov_status` together with the messages and SRAP pre-state it sets. -/
structure GradeOutcome where
  ov_status : ℕ
  msg_ov : String
  cond_srap : Bool
  msg_srap : String
  solved_by_srap : Bool
  post_srap_flow : ℚ
  max_srap_power : ℚ
deriving DecidableEq, Repr

/-- Classification chain of `analyze` (`if 1 < c_load <= rate_nx_pu: ...
elif ... else: ...`), evaluated on the branch's local values. -/
def gradeBranch (c_flow c_load nx srap db : ℚ) : GradeOutcome :=
  if 1 < c_load ∧ c_load ≤ nx then
    ⟨1, "Overload acceptable", false, "SRAP not needed", false, c_flow, 0⟩
  else if nx < c_load ∧ c_load ≤ srap then
    ⟨2, "Overload not acceptable", true, "SRAP applicable", false, c_flow, 0⟩
  else if srap < c_load ∧ c_load ≤ srap + db / 100 then
    ⟨3, "Overload not acceptable", true, "SRAP not applicable", false,
      c_flow, 0⟩
  else if srap + db / 100 < c_load then
    ⟨4, "Overload not acceptable", false, "SRAP not applicable", false,
      c_flow, 0⟩
  else
    ⟨0, "Error", false, "Error", false, c_flow, errSentinel⟩

/-- Outcome of the contingency loop body for one monitored branch: the row
appended to the report, if any, and whether the remedial-action search
`is_solvable` was invoked. -/
structure ContBranchResult where
  row : Option ContingencyTableEntry
  srap_invoked : Bool
deriving DecidableEq, Repr

/-- Grade outcome computed by `analyze` for monitored branch `m`. -/
def branchOutcome (inp : AnalyzeInputs) (m : ℕ) : GradeOutcome :=
  gradeBranch (cFlow inp m) (cLoad inp m) (rate_nx_pu inp m)
    (rate_srap_pu inp m) inp.srap_deadband

/-- Grade assigned to monitored branch `m` by `analyze` when the gate
passes. -/
def branchGrade (inp : AnalyzeInputs) (m : ℕ) : ℕ :=
  (branchOutcome inp m).ov_status

/-- Condition `using_srap and cond_srap` guarding the remedial-action
search in `analyze`. -/
def srapInvokedFlag (inp : AnalyzeInputs) (g : GradeOutcome) : Bool :=
  inp.using_srap && g.cond_srap

/-- SRAP block of `analyze`: when `using_srap and cond_srap`, call the
feasibility search and recompute `(solved_by_srap, max_srap_power,
post_srap_flow, msg_ov)`; otherwise keep the values set by the
classification chain. -/
def afterSrap (inp : AnalyzeInputs) (m : ℕ) (g : GradeOutcome) :
    Bool × ℚ × ℚ × String :=
  if srapInvokedFlag inp g = true then
    let res := inp.srap_is_solvable m
    let psf0 := |cFlow inp m| - |res.2|
    let psf := if psf0 < 0 then 0 else psf0
    ⟨res.1, res.2, psf,
      if res.1 = true ∧ g.ov_status = 2 then "Overload acceptable"
      else "Overload not acceptable"⟩
  else ⟨g.solved_by_srap, g.max_srap_power, g.post_srap_flow, g.msg_ov⟩

/-- Contingency row appended by `analyze` for a gated monitored branch
(when `detailed_massive_report` holds). -/
def mkContEntry (inp : AnalyzeInputs) (m : ℕ) (g : GradeOutcome) :
    ContingencyTableEntry :=
  { time_index := inp.t.getD 0
    area_from := inp.area_names (inp.bus_area_indices (inp.F m))
    area_to := inp.area_names (inp.bus_area_indices (inp.T m))
    base_name := inp.branch_names m
    contingency_name := inp.contingency_group_name
    base_rating := inp.rates m
    contingency_rating := inp.contingency_rates m
    srap_rating := inp.srap_ratings m
    base_flow := |bFlow inp m|
    post_contingency_flow := |cFlow inp m|
    post_srap_flow := (afterSrap inp m g).2.2.1
    base_loading := |inp.base_loading m|
    post_contingency_loading := |inp.contingency_loadings m|
    post_srap_loading := (afterSrap inp m g).2.2.1 / (inp.rates m + eps)
    msg_ov := (afterSrap inp m g).2.2.2
    msg_srap := g.msg_srap
    srap_power := |(afterSrap inp m g).2.1|
    solved_by_srap := (afterSrap inp m g).1 }

/-- Body of `for m in mon_idx` in the contingency section of `analyze`:
gate, classification chain, optional SRAP search, optional report row. -/
def processBranchCont (inp : AnalyzeInputs) (m : ℕ) : ContBranchResult :=
  if gating inp m then
    ⟨if inp.detailed_massive_report then
        some (mkContEntry inp m (branchOutcome inp m))
      else none,
     srapInvokedFlag inp (branchOutcome inp m)⟩
  else
    ⟨none, false⟩

/-- Base-case row appended for monitored branch `m` when
`contingency_idx == 0` and `abs(base_flow[m]) > rates[m]`. -/
def mkBaseEntry (inp : AnalyzeInputs) (m : ℕ) : ContingencyTableEntry :=
  { time_index := inp.t.getD 0
    area_from := inp.area_names (inp.bus_area_indices (inp.F m))
    area_to := inp.area_names (inp.bus_area_indices (inp.T m))
    base_name := inp.branch_names m
    contingency_name := "Base"
    base_rating := inp.rates m
    contingency_rating := inp.contingency_rates m
    srap_rating := inp.srap_ratings m
    base_flow := |inp.base_flow m|
    post_contingency_flow := 0
    post_srap_flow := 0
    base_loading := |inp.base_flow m| / (inp.rates m + eps)
    post_contingency_loading := 0
    post_srap_loading := 0
    msg_ov := "Overload not acceptable"
    msg_srap := "SRAP not applicable"
    srap_power := 0
    solved_by_srap := false }

/-- Method `analyze`: reporting of the base case (only when
`contingency_idx == 0`) followed by the contingency loop, appending rows to
the report `r` it was called on. -/
def ContingencyResultsReport.analyze (r : ContingencyResultsReport)
    (inp : AnalyzeInputs) : ContingencyResultsReport :=
  let r1 :=
    if inp.contingency_idx = 0 then
      inp.mon_idx.foldl
        (fun acc m =>
          if |inp.base_flow m| > inp.rates m then
            acc.add_entry (mkBaseEntry inp m)
          else acc)
        r
    else r
  inp.mon_idx.foldl
    (fun acc m =>
      match (processBranchCont inp m).row with
      | some e => acc.add_entry e
      | none => acc)
    r1

/-- Base-case rows produced by one `analyze` call, in order. -/
def baseRows (inp : AnalyzeInputs) : List ContingencyTableEntry :=
  if inp.contingency_idx = 0 then
    (inp.mon_idx.filter
      (fun m => decide (|inp.base_flow m| > inp.rates m))).map (mkBaseEntry inp)
  else []

/-- Contingency rows produced by one `analyze` call, in order. -/
def contRows (inp : AnalyzeInputs) : List ContingencyTableEntry :=
  inp.mon_idx.filterMap (fun m => (processBranchCont inp m).row)

/-- Concrete input record used to exercise the embedding on explicit
numbers.  The base rating is `1 - 1e-9`, so every per-unit denominator
`rates[m] + 1e-9` is exactly `1`; the gated branch `0` has contingency flow
`3`, contingency loading `3/2`, `rate_nx_pu = 2` and `rate_srap_pu = 3`,
hence grade 1. -/
def defaultInputs : AnalyzeInputs :=
  { t := none
    mon_idx := [0]
    rates := fun _ => 1 - eps
    contingency_rates := fun _ => 2
    branch_names := fun _ => "L0"
    base_flow := fun _ => 1
    base_loading := fun _ => 1
    contingency_flows := fun _ => 3
    contingency_loadings := fun _ => 3 / 2
    contingency_idx := 1
    contingency_group_name := "N-1"
    using_srap := true
    srap_ratings := fun _ => 3
    srap_deadband := 0
    contingency_deadband := 0
    F := fun _ => 0
    T := fun _ => 0
    bus_area_indices := fun _ => 0
    area_names := fun _ => "A"
    detailed_massive_report := true
    srap_is_solvable := fun _ => (true, 1) }

/-- Concrete input with a non-monotone rating hierarchy
(`rate_srap_pu = 6/5 < 2 = rate_nx_pu` via `srap_deadband = 10`) and
contingency loading `5/4`, which lies in the first interval `(1, 2]` and
simultaneously in the stated grade-3 interval `(6/5, 13/10]`. -/
def inpC1 : AnalyzeInputs :=
  { defaultInputs with
    contingency_flows := fun _ => 2
    contingency_loadings := fun _ => 5 / 4
    srap_ratings := fun _ => 6 / 5
    srap_deadband := 10 }

/-- Concrete input for the base-case section: `contingency_idx = 0`, base
flow `2` above the rating, contingency flow equal to the base flow so the
contingency loop emits nothing. -/
def inpC7 : AnalyzeInputs :=
  { defaultInputs with
    contingency_idx := 0
    base_flow := fun _ => 2
    contingency_flows := fun _ => 2 }

/-- Concrete input whose branch ratings are exactly zero. -/
def inpC9 : AnalyzeInputs :=
  { defaultInputs with rates := fun _ => 0 }

/-- Concrete input with the massive report disabled, SRAP active and a
grade-2 branch (contingency loading `9/4` between `rate_nx_pu = 2` and
`rate_srap_pu = 3`). -/
def inpC10 : AnalyzeInputs :=
  { defaultInputs with
    contingency_loadings := fun _ => 9 / 4
    detailed_massive_report := false }

/-- Concrete grade-2 input: contingency loading `9/4` lies in
`(rate_nx_pu, rate_srap_pu] = (2, 3]`. -/
def inpC4 : AnalyzeInputs :=
  { defaultInputs with contingency_loadings := fun _ => 9 / 4 }

/-- Concrete input whose contingency loading is `1/2`, below the overload
gate. -/
def inpC3 : AnalyzeInputs :=
  { defaultInputs with contingency_loadings := fun _ => 1 / 2 }

/-- Empty report. -/
def emptyReport : ContingencyResultsReport := ⟨[]⟩

lemma get_ptdf_comp_numba_state_eq_outer (data : ℕ → ℚ) (indices : ℕ → ℕ)
    (indptr : ℕ → ℕ) (PTDF : ℕ → ℕ → ℚ) (m : ℕ) (bd_indices : List ℕ) :
    get_ptdf_comp_numba_state data indices indptr PTDF m bd_indices =
      ptdfOuter data indices indptr m (pyEnumerate bd_indices) PTDF := rfl

lemma ptdfStep_ne (data : ℕ → ℚ) (indices : ℕ → ℕ) (m : ℕ)
    (P : ℕ → ℕ → ℚ) (bd i r c : ℕ) (hr : r ≠ m) :
    ptdfStep data indices m P bd i r c = P r c := by
  unfold ptdfStep
  by_cases h : indices i = m
  · simp [h, hr]
  · simp [h]

lemma innerFold_ne (data : ℕ → ℚ) (indices : ℕ → ℕ) (m bd : ℕ)
    (L : List ℕ) :
    ∀ (P : ℕ → ℕ → ℚ) (r c : ℕ), r ≠ m →
      (L.foldl (fun P' i => ptdfStep data indices m P' bd i) P) r c =
        P r c := by
  induction L with
  | nil => intro P r c _; rfl
  | cons i L ih =>
    intro P r c hr
    rw [List.foldl_cons, ih _ r c hr, ptdfStep_ne _ _ _ _ _ _ _ _ hr]

lemma innerFold_m (data : ℕ → ℚ) (indices : ℕ → ℕ) (m bd : ℕ)
    (hbd : bd ≠ m) (L : List ℕ) :
    ∀ (P : ℕ → ℕ → ℚ) (c : ℕ),
      (L.foldl (fun P' i => ptdfStep data indices m P' bd i) P) m c =
        P m c + ((L.filter (fun i => indices i = m)).map data).sum * P bd c := by
  induction L with
  | nil => intro P c; simp
  | cons i L ih =>
    intro P c
    rw [List.foldl_cons, ih]
    by_cases h : indices i = m
    · have hm : ptdfStep data indices m P bd i m c = P m c + data i * P bd c := by
        simp [ptdfStep, h]
      have hb : ptdfStep data indices m P bd i bd c = P bd c := by
        simp [ptdfStep, h, hbd]
      rw [hm, hb, List.filter_cons, if_pos (by simpa using h), List.map_cons,
        List.sum_cons]
      ring
    · have hm : ptdfStep data indices m P bd i m c = P m c := by
        simp [ptdfStep, h]
      have hb : ptdfStep data indices m P bd i bd c = P bd c := by
        simp [ptdfStep, h]
      rw [hm, hb, List.filter_cons, if_neg (by simpa using h)]

lemma ptdfOuter_ne (data : ℕ → ℚ) (indices : ℕ → ℕ) (indptr : ℕ → ℕ)
    (m : ℕ) (ps : List (ℕ × ℕ)) :
    ∀ (P : ℕ → ℕ → ℚ) (r c : ℕ), r ≠ m →
      ptdfOuter data indices indptr m ps P r c = P r c := by
  induction ps with
  | nil => intro P r c _; rfl
  | cons jbd ps ih =>
    intro P r c hr
    unfold ptdfOuter
    rw [List.foldl_cons]
    have := ih ((List.range' (indptr jbd.1)
      (indptr (jbd.1 + 1) - indptr jbd.1)).foldl
      (fun Q' i => ptdfStep data indices m Q' jbd.2 i) P) r c hr
    unfold ptdfOuter at this
    rw [this, innerFold_ne _ _ _ _ _ _ _ _ hr]

lemma ptdfOuter_m (data : ℕ → ℚ) (indices : ℕ → ℕ) (indptr : ℕ → ℕ)
    (m : ℕ) (ps : List (ℕ × ℕ)) (hps : ∀ p ∈ ps, p.2 ≠ m) :
    ∀ (P : ℕ → ℕ → ℚ) (c : ℕ),
      ptdfOuter data indices indptr m ps P m c =
        P m c +
          (ps.map
            (fun jbd => mlodfEntry data indices indptr m jbd.1 * P jbd.2 c)).sum := by
  induction ps with
  | nil => intro P c; simp [ptdfOuter]
  | cons jbd ps ih =>
    intro P c
    have hbd : jbd.2 ≠ m := hps jbd (List.mem_cons_self _ _)
    have hps' : ∀ p ∈ ps, p.2 ≠ m := fun p hp => hps p (List.mem_cons_of_mem _ hp)
    unfold ptdfOuter
    rw [List.foldl_cons]
    set P1 := (List.range' (indptr jbd.1)
      (indptr (jbd.1 + 1) - indptr jbd.1)).foldl
      (fun Q' i => ptdfStep data indices m Q' jbd.2 i) P with hP1
    have hfold := ih hps' P1 c
    unfold ptdfOuter at hfold
    rw [hfold]
    have h1m : P1 m c = P m c + mlodfEntry data indices indptr m jbd.1 * P jbd.2 c := by
      rw [hP1, innerFold_m _ _ _ _ hbd]
      rfl
    have h1rest : (ps.map
        (fun p => mlodfEntry data indices indptr m p.1 * P1 p.2 c)).sum =
        (ps.map
          (fun p => mlodfEntry data indices indptr m p.1 * P p.2 c)).sum := by
      apply congrArg
      apply List.map_congr_left
      intro p hp
      rw [hP1, innerFold_ne _ _ _ _ _ _ _ _ (hps' p hp)]
    rw [h1rest, h1m, List.map_cons, List.sum_cons]
    ring

lemma mem_pyEnumerate_snd {α : Type} {l : List α} {p : ℕ × α}
    (hp : p ∈ pyEnumerate l) : p.2 ∈ l := by
  unfold pyEnumerate at hp
  obtain ⟨j, a⟩ := p
  exact (List.of_mem_zip hp).2

lemma get_ptdf_comp_eq_dense (data : ℕ → ℚ) (indices : ℕ → ℕ)
    (indptr : ℕ → ℕ) (PTDF : ℕ → ℕ → ℚ) (m : ℕ) (bd_indices : List ℕ)
    (hm : m ∉ bd_indices) :
    get_ptdf_comp m bd_indices data indices indptr PTDF =
      denseReferenceRow data indices indptr PTDF m bd_indices := by
  funext c
  unfold get_ptdf_comp denseReferenceRow
  rw [get_ptdf_comp_numba_state_eq_outer]
  exact ptdfOuter_m data indices indptr m (pyEnumerate bd_indices)
    (fun p hp h => hm (h ▸ mem_pyEnumerate_snd hp)) PTDF c

lemma grade_eq_one_iff (c_flow c nx srap db : ℚ) :
    (gradeBranch c_flow c nx srap db).ov_status = 1 ↔ 1 < c ∧ c ≤ nx := by
  unfold gradeBranch
  split_ifs with h1 h2 h3 h4
  · exact iff_of_true rfl h1
  · exact iff_of_false (by simp) h1
  · exact iff_of_false (by simp) h1
  · exact iff_of_false (by simp) h1
  · exact iff_of_false (by simp) h1

lemma grade_eq_two_iff (c_flow c nx srap db : ℚ) :
    (gradeBranch c_flow c nx srap db).ov_status = 2 ↔ nx < c ∧ c ≤ srap := by
  unfold gradeBranch
  split_ifs with h1 h2 h3 h4
  · exact iff_of_false (by simp) (fun hc => not_lt.mpr h1.2 hc.1)
  · exact iff_of_true rfl h2
  · exact iff_of_false (by simp) h2
  · exact iff_of_false (by simp) h2
  · exact iff_of_false (by simp) h2

lemma grade_eq_three_iff (c_flow c nx srap db : ℚ) (hmono : nx ≤ srap) :
    (gradeBranch c_flow c nx srap db).ov_status = 3 ↔
      srap < c ∧ c ≤ srap + db / 100 := by
  unfold gradeBranch
  split_ifs with h1 h2 h3 h4
  · exact iff_of_false (by simp)
      (fun hc => not_lt.mpr (le_trans h1.2 hmono) hc.1)
  · exact iff_of_false (by simp) (fun hc => not_lt.mpr h2.2 hc.1)
  · exact iff_of_true rfl h3
  · exact iff_of_false (by simp) h3
  · exact iff_of_false (by simp) h3

lemma grade_eq_four_iff (c_flow c nx srap db : ℚ) (hmono : nx ≤ srap)
    (hdb : 0 ≤ db) :
    (gradeBranch c_flow c nx srap db).ov_status = 4 ↔
      srap + db / 100 < c := by
  have hdb' : (0 : ℚ) ≤ db / 100 := by positivity
  unfold gradeBranch
  split_ifs with h1 h2 h3 h4
  · refine iff_of_false (by simp) (fun hc => ?_)
    have := h1.2
    linarith
  · refine iff_of_false (by simp) (fun hc => ?_)
    have := h2.2
    linarith
  · refine iff_of_false (by simp) (fun hc => ?_)
    have := h3.2
    linarith
  · exact iff_of_true rfl h4
  · exact iff_of_false (by simp) h4

lemma grade_cond_srap_iff (c_flow c nx srap db : ℚ) :
    (gradeBranch c_flow c nx srap db).cond_srap = true ↔
      (gradeBranch c_flow c nx srap db).ov_status = 2 ∨
        (gradeBranch c_flow c nx srap db).ov_status = 3 := by
  unfold gradeBranch
  split_ifs <;> simp

lemma grade_one_four_outcome (c_flow c nx srap db : ℚ)
    (h : (gradeBranch c_flow c nx srap db).ov_status = 1 ∨
      (gradeBranch c_flow c nx srap db).ov_status = 4) :
    (gradeBranch c_flow c nx srap db).cond_srap = false ∧
      (gradeBranch c_flow c nx srap db).solved_by_srap = false ∧
      (gradeBranch c_flow c nx srap db).max_srap_power = 0 := by
  unfold gradeBranch at *
  split_ifs at * <;> simp_all

lemma grade_nonzero_of_gated (c_flow c nx srap db : ℚ) (hc : 1 < c) :
    (gradeBranch c_flow c nx srap db).ov_status ≠ 0 := by
  unfold gradeBranch
  split_ifs with h1 h2 h3 h4
  · simp
  · simp
  · simp
  · simp
  · exfalso
    have hnx : nx < c := by
      rcases not_and_or.mp h1 with h | h
      · exact absurd hc h
      · exact lt_of_not_le h
    have hsrap : srap < c := by
      rcases not_and_or.mp h2 with h | h
      · exact absurd hnx h
      · exact lt_of_not_le h
    have hdb : srap + db / 100 < c := by
      rcases not_and_or.mp h3 with h | h
      · exact absurd hsrap h
      · exact lt_of_not_le h
    exact h4 hdb

lemma base_fold_entries (inp : AnalyzeInputs) (l : List ℕ)
    (r : ContingencyResultsReport) :
    (l.foldl
      (fun acc m =>
        if |inp.base_flow m| > inp.rates m then
          acc.add_entry (mkBaseEntry inp m)
        else acc)
      r).entries =
    r.entries ++
      (l.filter (fun m => decide (|inp.base_flow m| > inp.rates m))).map
        (mkBaseEntry inp) := by
  induction l generalizing r with
  | nil => simp
  | cons a l ih =>
    rw [List.foldl_cons, ih]
    by_cases h : |inp.base_flow a| > inp.rates a
    · simp [List.filter_cons, h, ContingencyResultsReport.add_entry]
    · simp [List.filter_cons, h]

lemma cont_fold_entries (inp : AnalyzeInputs) (l : List ℕ)
    (r : ContingencyResultsReport) :
    (l.foldl
      (fun acc m =>
        match (processBranchCont inp m).row with
        | some e => acc.add_entry e
        | none => acc)
      r).entries =
    r.entries ++ l.filterMap (fun m => (processBranchCont inp m).row) := by
  induction l generalizing r with
  | nil => simp
  | cons a l ih =>
    rw [List.foldl_cons, ih, List.filterMap_cons]
    cases h : (processBranchCont inp a).row with
    | none => rfl
    | some e => simp [h, ContingencyResultsReport.add_entry]

lemma analyze_entries (r : ContingencyResultsReport) (inp : AnalyzeInputs) :
    (r.analyze inp).entries = r.entries ++ baseRows inp ++ contRows inp := by
  simp only [ContingencyResultsReport.analyze]
  rw [cont_fold_entries]
  unfold baseRows contRows
  by_cases h : inp.contingency_idx = 0
  · rw [if_pos h, if_pos h, base_fold_entries, List.append_assoc]
  · rw [if_neg h, if_neg h, List.append_nil]

lemma foldl_add_entry (l : List ContingencyTableEntry) :
    ∀ r : ContingencyResultsReport,
      l.foldl ContingencyResultsReport.add_entry r = ⟨r.entries ++ l⟩ := by
  induction l with
  | nil => intro r; simp
  | cons e l ih =>
    intro r
    rw [List.foldl_cons, ih]
    simp [ContingencyResultsReport.add_entry]

/-- Claim C8: merge concatenates the two entry sequences in order with no
deduplication or reordering, merge is associative, and the in-place
`__iadd__` produces the same report as merge. -/
theorem claim_C8_merge_concat_assoc (A B C : ContingencyResultsReport) :
    (A.merge B).entries = A.entries ++ B.entries ∧
    (A.merge B).merge C = A.merge (B.merge C) ∧
    A.iadd B = A.merge B := by
  refine ⟨rfl, ?_, ?_⟩
  · simp [ContingencyResultsReport.merge, List.append_assoc]
  · rw [ContingencyResultsReport.iadd, foldl_add_entry]
    rfl

/-- Claim C2: for every monitored branch `m` and list of outaged branches
not containing `m`, the sparse-scan kernel returns exactly the dense
reference row `PTDF[m,:] + Σ_k MLODF[m,k] · PTDF[k,:]`; in particular with
no outaged branches it returns the base row `PTDF[m,:]` unchanged. -/
theorem claim_C2_ptdf_comp_refinement (data : ℕ → ℚ) (indices : ℕ → ℕ)
    (indptr : ℕ → ℕ) (PTDF : ℕ → ℕ → ℚ) (m : ℕ) (bd_indices : List ℕ)
    (hm : m ∉ bd_indices) :
    get_ptdf_comp m bd_indices data indices indptr PTDF =
      denseReferenceRow data indices indptr PTDF m bd_indices ∧
    get_ptdf_comp m [] data indices indptr PTDF = PTDF m := by
  refine ⟨get_ptdf_comp_eq_dense _ _ _ _ _ _ hm, ?_⟩
  rw [get_ptdf_comp_eq_dense data indices indptr PTDF m [] (List.not_mem_nil m)]
  funext c
  simp [denseReferenceRow, pyEnumerate]

/-- Witness for claim C2 at a concrete 2-by-2 instance with one outaged
branch. -/
theorem claim_C2_witness :
    (0 : ℕ) ∉ [1] ∧
    (get_ptdf_comp 0 [1] (fun _ => 1) (fun _ => 0) (fun j => j)
        (fun r _ => if r = 0 then 1 else 2) =
      denseReferenceRow (fun _ => 1) (fun _ => 0) (fun j => j)
        (fun r _ => if r = 0 then 1 else 2) 0 [1] ∧
      get_ptdf_comp 0 [] (fun _ => 1) (fun _ => 0) (fun j => j)
        (fun r _ => if r = 0 then 1 else 2) =
        (fun r _ => if r = 0 then (1 : ℚ) else 2) 0) :=
  ⟨by decide,
   claim_C2_ptdf_comp_refinement (fun _ => 1) (fun _ => 0) (fun j => j)
     (fun r _ => if r = 0 then 1 else 2) 0 [1] (by decide)⟩

/-- Claim C5 evaluation: the kernel of `get_ptdf_comp_numba` binds `result`
to a view of `PTDF[m, :]` and accumulates in place, so the input PTDF
matrix is mutated.  At `m = 0`, one outaged branch `1`, a single stored
MLODF value `1` at row `0`, and `PTDF = [[1, ...], [2, ...]]`, the final
matrix state holds `3` at `(0, 0)` whereas the input held `1`, hence the
post-call PTDF differs from the input PTDF. -/
theorem claim_C5_ptdf_mutation :
    get_ptdf_comp_numba_state (fun _ => 1) (fun _ => 0) (fun j => j)
      (fun r _ => if r = 0 then 1 else 2) 0 [1] 0 0 = 3 ∧
    (fun r _ => if r = 0 then (1 : ℚ) else 2) 0 0 = 1 ∧
    get_ptdf_comp_numba_state (fun _ => 1) (fun _ => 0) (fun j => j)
      (fun r _ => if r = 0 then 1 else 2) 0 [1] ≠
      fun r _ => if r = 0 then (1 : ℚ) else 2 := by
  have h3 : get_ptdf_comp_numba_state (fun _ => 1) (fun _ => 0) (fun j => j)
      (fun r _ => if r = 0 then 1 else 2) 0 [1] 0 0 = 3 := by
    norm_num [get_ptdf_comp_numba_state, pyEnumerate, ptdfStep,
      List.range_succ, List.range_zero, List.zip_cons_cons,
      List.zip_nil_right, List.zip_nil_left, List.range']
  refine ⟨h3, by norm_num, fun h => ?_⟩
  rw [h] at h3
  norm_num at h3

/-- Claim C6 counterexample: there is no gated input (`c_load > 1`) on
which the classification chain falls through all four intervals; the
grade-0 branch is unreachable for gated branches even with a non-monotone
rating hierarchy. -/
theorem claim_C6_counterexample :
    (∃ c_flow c nx srap db : ℚ, 1 < c ∧
      (gradeBranch c_flow c nx srap db).ov_status = 0) = False := by
  simp only [eq_iff_iff, iff_false, not_exists]
  intro cf c nx srap db h
  exact grade_nonzero_of_gated cf c nx srap db h.1 h.2

/-- Claim C6 (amended): the fallback branch of the classification chain
assigns grade 0 with message "Error" for both the overload and the SRAP
messages and raises nothing; however no gated branch reaches it, because
for every `c_load > 1` one of the four intervals matches. -/
theorem claim_C6_error_branch (c_flow c nx srap db : ℚ) :
    (¬(1 < c ∧ c ≤ nx) → ¬(nx < c ∧ c ≤ srap) →
      ¬(srap < c ∧ c ≤ srap + db / 100) → ¬(srap + db / 100 < c) →
      gradeBranch c_flow c nx srap db =
        ⟨0, "Error", false, "Error", false, c_flow, errSentinel⟩) ∧
    (1 < c → (gradeBranch c_flow c nx srap db).ov_status ≠ 0) := by
  constructor
  · intro h1 h2 h3 h4
    unfold gradeBranch
    rw [if_neg h1, if_neg h2, if_neg h3, if_neg h4]
  · exact grade_nonzero_of_gated c_flow c nx srap db

/-- Witness for claim C6 at an ungated input (`c_load = 1/2`) on which all
four intervals fail and the fallback fires. -/
theorem claim_C6_witness :
    gradeBranch 0 (1 / 2) 2 (3 / 2) 0 =
      ⟨0, "Error", false, "Error", false, 0, errSentinel⟩ :=
  (claim_C6_error_branch 0 (1 / 2) 2 (3 / 2) 0).1 (by norm_num) (by norm_num)
    (by norm_num) (by norm_num)

/-- Claim C1 (amended): for every gated branch, under a monotone rating
hierarchy (`rate_nx_pu ≤ rate_srap_pu`, `srap_deadband ≥ 0`), the grade is
characterised by the half-open upper-inclusive intervals of `c_load`:
grade 1 iff `1 < c_load ≤ rate_nx_pu`, grade 2 iff
`rate_nx_pu < c_load ≤ rate_srap_pu`, grade 3 iff
`rate_srap_pu < c_load ≤ rate_srap_pu + srap_deadband/100`, grade 4 iff
`c_load > rate_srap_pu + srap_deadband/100`; boundary values fall into the
lower interval. -/
theorem claim_C1_grade_intervals (inp : AnalyzeInputs) (m : ℕ)
    (hg : gating inp m)
    (hmono : rate_nx_pu inp m ≤ rate_srap_pu inp m)
    (hdb : 0 ≤ inp.srap_deadband) :
    (branchGrade inp m = 1 ↔
      1 < cLoad inp m ∧ cLoad inp m ≤ rate_nx_pu inp m) ∧
    (branchGrade inp m = 2 ↔
      rate_nx_pu inp m < cLoad inp m ∧ cLoad inp m ≤ rate_srap_pu inp m) ∧
    (branchGrade inp m = 3 ↔
      rate_srap_pu inp m < cLoad inp m ∧
        cLoad inp m ≤ rate_srap_pu inp m + inp.srap_deadband / 100) ∧
    (branchGrade inp m = 4 ↔
      rate_srap_pu inp m + inp.srap_deadband / 100 < cLoad inp m) := by
  unfold branchGrade branchOutcome
  exact ⟨grade_eq_one_iff _ _ _ _ _, grade_eq_two_iff _ _ _ _ _,
    grade_eq_three_iff _ _ _ _ _ hmono, grade_eq_four_iff _ _ _ _ _ hmono hdb⟩

/-- Claim C1 counterexample: at `inpC1` (non-monotone hierarchy,
`rate_srap_pu = 6/5 < rate_nx_pu = 2`, `srap_deadband = 10`) the gate
passes and `c_load = 5/4` lies inside the stated grade-3 interval
`(6/5, 13/10]`, yet the assigned grade is 1 because the first interval
matches first — so the grade-3 "iff" of the claim as stated is false. -/
theorem claim_C1_counterexample :
    gating inpC1 0 ∧ branchGrade inpC1 0 = 1 ∧
    rate_srap_pu inpC1 0 < cLoad inpC1 0 ∧
    cLoad inpC1 0 ≤ rate_srap_pu inpC1 0 + inpC1.srap_deadband / 100 ∧
    ¬(branchGrade inpC1 0 = 3 ↔
      rate_srap_pu inpC1 0 < cLoad inpC1 0 ∧
        cLoad inpC1 0 ≤ rate_srap_pu inpC1 0 + inpC1.srap_deadband / 100) := by
  have hgate : gating inpC1 0 := by
    norm_num [gating, cFlow, bFlow, cLoad, eps, inpC1, defaultInputs,
      abs_of_nonneg]
  have hgrade : branchGrade inpC1 0 = 1 := by
    norm_num [branchGrade, branchOutcome, gradeBranch, cFlow, cLoad,
      rate_nx_pu, rate_srap_pu, eps, inpC1, defaultInputs, abs_of_nonneg]
  have hlo : rate_srap_pu inpC1 0 < cLoad inpC1 0 := by
    norm_num [rate_srap_pu, cLoad, eps, inpC1, defaultInputs, abs_of_nonneg]
  have hhi : cLoad inpC1 0 ≤ rate_srap_pu inpC1 0 + inpC1.srap_deadband / 100 := by
    norm_num [rate_srap_pu, cLoad, eps, inpC1, defaultInputs, abs_of_nonneg]
  refine ⟨hgate, hgrade, hlo, hhi, fun h => ?_⟩
  have h3 := h.mpr ⟨hlo, hhi⟩
  rw [hgrade] at h3
  exact absurd h3 (by norm_num)

/-- Witness for claim C1 at `defaultInputs` (monotone hierarchy, gated
branch of grade 1). -/
theorem claim_C1_witness :
    gating defaultInputs 0 ∧
    (branchGrade defaultInputs 0 = 1 ↔
      1 < cLoad defaultInputs 0 ∧
        cLoad defaultInputs 0 ≤ rate_nx_pu defaultInputs 0) := by
  have hgate : gating defaultInputs 0 := by
    norm_num [gating, cFlow, bFlow, cLoad, eps, defaultInputs, abs_of_nonneg]
  exact ⟨hgate,
    (claim_C1_grade_intervals defaultInputs 0 hgate
      (by norm_num [rate_nx_pu, rate_srap_pu, eps, defaultInputs])
      (by norm_num [defaultInputs])).1⟩

/-- Claim C3: a contingency row for a monitored branch exists only if all
four gating conditions hold (flow changed, relative increase beyond the
contingency deadband, post-contingency loading above 1, flow magnitude
increased); in particular a branch with `c_load ≤ 1` emits no row. -/
theorem claim_C3_gating_only_if (inp : AnalyzeInputs) (m : ℕ) :
    ((processBranchCont inp m).row.isSome = true →
      inp.contingency_flows m ≠ inp.base_flow m ∧
      cFlow inp m / (bFlow inp m + eps) - 1 > inp.contingency_deadband ∧
      cLoad inp m > 1 ∧
      cFlow inp m > bFlow inp m) ∧
    (cLoad inp m ≤ 1 → (processBranchCont inp m).row = none) := by
  constructor
  · intro hrow
    by_cases hgate : gating inp m
    · exact hgate
    · unfold processBranchCont at hrow
      rw [if_neg hgate] at hrow
      simp at hrow
  · intro hc
    by_cases hgate : gating inp m
    · exact absurd hgate.2.2.1 (not_lt.mpr hc)
    · unfold processBranchCont
      rw [if_neg hgate]

/-- Witness for claim C3 at `inpC3`, whose contingency loading `1/2` is
below the gate. -/
theorem claim_C3_witness :
    cLoad inpC3 0 ≤ 1 ∧ (processBranchCont inpC3 0).row = none :=
  ⟨by norm_num [cLoad, inpC3, defaultInputs, abs_of_nonneg],
   (claim_C3_gating_only_if inpC3 0).2
     (by norm_num [cLoad, inpC3, defaultInputs, abs_of_nonneg])⟩

/-- Claim C4: the remedial-action search is invoked iff `using_srap` holds
and the grade is 2 or 3; for a branch graded 1 or 4 the search is never
invoked and the reported row (when any) carries `solved_by_srap = False`
and `srap_power = 0`. -/
theorem claim_C4_srap_eligibility (inp : AnalyzeInputs) (m : ℕ)
    (hg : gating inp m) :
    ((processBranchCont inp m).srap_invoked = true ↔
      inp.using_srap = true ∧
        (branchGrade inp m = 2 ∨ branchGrade inp m = 3)) ∧
    (branchGrade inp m = 1 ∨ branchGrade inp m = 4 →
      (processBranchCont inp m).srap_invoked = false ∧
      ∀ e, (processBranchCont inp m).row = some e →
        e.solved_by_srap = false ∧ e.srap_power = 0) := by
  unfold processBranchCont branchGrade branchOutcome
  rw [if_pos hg]
  constructor
  · show srapInvokedFlag inp _ = true ↔ _
    rw [srapInvokedFlag, Bool.and_eq_true]
    exact and_congr Iff.rfl (grade_cond_srap_iff _ _ _ _ _)
  · intro h14
    obtain ⟨hcond, hsol, hmax⟩ := grade_one_four_outcome (cFlow inp m)
      (cLoad inp m) (rate_nx_pu inp m) (rate_srap_pu inp m)
      inp.srap_deadband h14
    have hflag : srapInvokedFlag inp
        (gradeBranch (cFlow inp m) (cLoad inp m) (rate_nx_pu inp m)
          (rate_srap_pu inp m) inp.srap_deadband) = false := by
      rw [srapInvokedFlag, hcond, Bool.and_false]
    have hafter : afterSrap inp m
        (gradeBranch (cFlow inp m) (cLoad inp m) (rate_nx_pu inp m)
          (rate_srap_pu inp m) inp.srap_deadband) =
        ⟨false, 0, (gradeBranch (cFlow inp m) (cLoad inp m)
          (rate_nx_pu inp m) (rate_srap_pu inp m)
          inp.srap_deadband).post_srap_flow,
         (gradeBranch (cFlow inp m) (cLoad inp m) (rate_nx_pu inp m)
          (rate_srap_pu inp m) inp.srap_deadband).msg_ov⟩ := by
      rw [afterSrap, hflag]
      simp [hsol, hmax]
    refine ⟨hflag, fun e he => ?_⟩
    by_cases hd : inp.detailed_massive_report
    · rw [if_pos hd] at he
      obtain rfl : mkContEntry inp m
          (gradeBranch (cFlow inp m) (cLoad inp m) (rate_nx_pu inp m)
            (rate_srap_pu inp m) inp.srap_deadband) = e :=
        Option.some.inj he
      constructor
      · show (afterSrap inp m _).1 = false
        rw [hafter]
      · show |(afterSrap inp m _).2.1| = 0
        rw [hafter]
        simp
    · rw [if_neg hd] at he
      exact Option.noConfusion he

/-- Witness for claim C4 at `inpC4`, a gated branch of grade 2 with
`using_srap` on. -/
theorem claim_C4_witness :
    gating inpC4 0 ∧
    ((processBranchCont inpC4 0).srap_invoked = true ↔
      inpC4.using_srap = true ∧
        (branchGrade inpC4 0 = 2 ∨ branchGrade inpC4 0 = 3)) := by
  have hgate : gating inpC4 0 := by
    norm_num [gating, cFlow, bFlow, cLoad, eps, inpC4, defaultInputs,
      abs_of_nonneg]
  exact ⟨hgate, (claim_C4_srap_eligibility inpC4 0 hgate).1⟩

/-- Claim C7: base-case rows are appended exactly when
`contingency_idx = 0`, one per monitored branch whose base flow magnitude
exceeds its base rating, in order, each carrying the literal contingency
name "Base", zero sentinels for the post-contingency and post-SRAP flow
and loading fields, zero SRAP power and `solved_by_srap = False`; for
`contingency_idx ≠ 0` no base-case row is appended, and contingency rows
carry the contingency-group name. -/
theorem claim_C7_base_case_rows (r : ContingencyResultsReport)
    (inp : AnalyzeInputs) :
    (inp.contingency_idx = 0 →
      (r.analyze inp).entries =
        r.entries ++
          (inp.mon_idx.filter
            (fun m => decide (|inp.base_flow m| > inp.rates m))).map
            (mkBaseEntry inp) ++ contRows inp) ∧
    (inp.contingency_idx ≠ 0 →
      (r.analyze inp).entries = r.entries ++ contRows inp) ∧
    (∀ m, (mkBaseEntry inp m).contingency_name = "Base" ∧
      (mkBaseEntry inp m).post_contingency_flow = 0 ∧
      (mkBaseEntry inp m).post_srap_flow = 0 ∧
      (mkBaseEntry inp m).post_contingency_loading = 0 ∧
      (mkBaseEntry inp m).post_srap_loading = 0 ∧
      (mkBaseEntry inp m).srap_power = 0 ∧
      (mkBaseEntry inp m).solved_by_srap = false) ∧
    (∀ e ∈ contRows inp, e.contingency_name = inp.contingency_group_name) := by
  refine ⟨?_, ?_, fun m => ⟨rfl, rfl, rfl, rfl, rfl, rfl, rfl⟩, ?_⟩
  · intro h
    rw [analyze_entries]
    unfold baseRows
    rw [if_pos h]
  · intro h
    rw [analyze_entries]
    unfold baseRows
    rw [if_neg h, List.append_nil]
  · intro e he
    obtain ⟨m, hm, hrow⟩ := List.mem_filterMap.mp he
    unfold processBranchCont at hrow
    by_cases hgate : gating inp m
    · rw [if_pos hgate] at hrow
      by_cases hd : inp.detailed_massive_report
      · rw [if_pos hd] at hrow
        obtain rfl : mkContEntry inp m (branchOutcome inp m) = e :=
          Option.some.inj hrow
        rfl
      · rw [if_neg hd] at hrow
        exact Option.noConfusion hrow
    · rw [if_neg hgate] at hrow
      exact Option.noConfusion hrow

/-- Witness for claim C7 at `inpC7`: one base row, no contingency row. -/
theorem claim_C7_witness :
    (emptyReport.analyze inpC7).entries =
      [] ++ [mkBaseEntry inpC7 0] ++ contRows inpC7 := by
  have h := (claim_C7_base_case_rows emptyReport inpC7).1
    (by norm_num [inpC7, defaultInputs])
  rw [h]
  norm_num [emptyReport, inpC7, defaultInputs, eps, List.filter,
    abs_of_nonneg]

/-- Claim C9: every rating denominator in `analyze` carries the additive
epsilon `1e-9`: the base-case loading, `rate_nx_pu`, `rate_srap_pu` and the
post-SRAP loading all divide by `rates[m] + 1e-9`, which is strictly
positive for any non-negative rating, and a rating of exactly zero yields
the finite value `numerator * 1e9` instead of a fault. -/
theorem claim_C9_epsilon_guards (inp : AnalyzeInputs) (m : ℕ)
    (h0 : 0 ≤ inp.rates m) :
    0 < inp.rates m + eps ∧
    (mkBaseEntry inp m).base_loading =
      |inp.base_flow m| / (inp.rates m + eps) ∧
    rate_nx_pu inp m = inp.contingency_rates m / (inp.rates m + eps) ∧
    rate_srap_pu inp m = inp.srap_ratings m / (inp.rates m + eps) ∧
    (∀ g, (mkContEntry inp m g).post_srap_loading =
      (afterSrap inp m g).2.2.1 / (inp.rates m + eps)) ∧
    (inp.rates m = 0 →
      (mkBaseEntry inp m).base_loading = |inp.base_flow m| * 1000000000) := by
  refine ⟨?_, rfl, rfl, rfl, fun g => rfl, ?_⟩
  · have heps : (0 : ℚ) < eps := by norm_num [eps]
    linarith
  · intro hz
    show |inp.base_flow m| / (inp.rates m + eps) = _
    rw [hz, zero_add, eps, div_eq_mul_inv]
    norm_num

/-- Witness for claim C9 at `inpC9`, whose base rating is exactly zero. -/
theorem claim_C9_witness :
    0 < inpC9.rates 0 + eps ∧
    (mkBaseEntry inpC9 0).base_loading = |inpC9.base_flow 0| * 1000000000 := by
  have h := claim_C9_epsilon_guards inpC9 0
    (by norm_num [inpC9, defaultInputs])
  exact ⟨h.1, h.2.2.2.2.2 (by norm_num [inpC9, defaultInputs])⟩

/-- Claim C10: with `detailed_massive_report = False` no contingency row is
appended even for gated branches, while the SRAP-search invocation flag is
unchanged with respect to the same inputs with the flag on, and base-case
rows do not depend on the flag at all. -/
theorem claim_C10_massive_report_flag (r : ContingencyResultsReport)
    (inp : AnalyzeInputs) (hd : inp.detailed_massive_report = false) :
    contRows inp = [] ∧
    (r.analyze inp).entries = r.entries ++ baseRows inp ∧
    (∀ m, (processBranchCont inp m).srap_invoked =
      (processBranchCont
        { inp with detailed_massive_report := true } m).srap_invoked) ∧
    baseRows inp = baseRows { inp with detailed_massive_report := true } := by
  have hrows : ∀ m, (processBranchCont inp m).row = none := by
    intro m
    unfold processBranchCont
    by_cases hgate : gating inp m
    · rw [if_pos hgate]
      simp [hd]
    · rw [if_neg hgate]
  have hcont : contRows inp = [] := by
    unfold contRows
    rw [List.filterMap_eq_nil_iff]
    intro m _
    exact hrows m
  refine ⟨hcont, ?_, ?_, rfl⟩
  · rw [analyze_entries, hcont, List.append_nil]
  · intro m
    by_cases hgate : gating inp m
    · have hgate' : gating { inp with detailed_massive_report := true } m :=
        hgate
      unfold processBranchCont
      rw [if_pos hgate, if_pos hgate']
      rfl
    · have hgate' : ¬gating { inp with detailed_massive_report := true } m :=
        hgate
      unfold processBranchCont
      rw [if_neg hgate, if_neg hgate']

/-- Witness for claim C10 at `inpC10` (massive report off, gated grade-2
branch with SRAP on). -/
theorem claim_C10_witness :
    inpC10.detailed_massive_report = false ∧ contRows inpC10 = [] :=
  ⟨rfl,
   (claim_C10_massive_report_flag emptyReport inpC10 rfl).1⟩
